import Mathlib

/-!
Verification development for the houseplant care scheduling core:
the due-status evaluator (`computeWaterDue` in `src/logic/watering.ts`,
rich five-status version) and the monthly forecast generator
(`computeMonthlyCareSchedule` in `src/features/calendar.ts`).

Conventions of the shallow embedding:
* Calendar dates are triples `YMD` (proleptic Gregorian); a JS `Date` at
  midnight is represented by its epoch-day number (`Int`, days since
  1970-01-01), matching the millisecond-timestamp arithmetic of the source
  (all relevant dates sit at midnight, so whole-day differences are exact).
* JS `number` values entering arithmetic are rationals; the one place the
  source can produce a non-finite number (`hint / factor` with factor 0)
  is represented explicitly by the `Thresh` type (`fin`/`inf`/`nan`), and
  a `NaN` day difference (unparseable date string) by `Option Int = none`.
  Comparisons mirror IEEE semantics: every comparison with NaN is false,
  finite values compare below `+Infinity`.
* String parsing models the fragments of JS behaviour the data can
  exercise: `new Date(s)` accepts exactly strict ISO `YYYY-MM-DD`;
  `Number(s)` on a date component yields its value for digit strings,
  0 for the empty string and NaN otherwise.
* The impure reads of the current date (`todayYMD()`, `new Date()`)
  are passed in as explicit `today` / `now` parameters.
-/

/-! ## Calendar arithmetic (src/utils/dates.ts) -/

structure YMD where
  y : Int
  m : Int
  d : Int
deriving DecidableEq, Repr

/-- Days since 1970-01-01 of a civil date (Hinnant's `days_from_civil`).
This is the epoch-day value underlying a JS `Date` at midnight. -/
def ymdToDay (x : YMD) : Int :=
  let y := if x.m ≤ 2 then x.y - 1 else x.y
  let era := Int.fdiv y 400
  let yoe := y - era * 400
  let mp := if 2 < x.m then x.m - 3 else x.m + 9
  let doy := Int.fdiv (153 * mp + 2) 5 + x.d - 1
  let doe := yoe * 365 + Int.fdiv yoe 4 - Int.fdiv yoe 100 + doy
  era * 146097 + doe - 719468

/-- Civil date from days since 1970-01-01 (Hinnant's `civil_from_days`). -/
def dayToYMD (z0 : Int) : YMD :=
  let z := z0 + 719468
  let era := Int.fdiv z 146097
  let doe := z - era * 146097
  let yoe := Int.fdiv (doe - Int.fdiv doe 1460 + Int.fdiv doe 36524 - Int.fdiv doe 146096) 365
  let yy := yoe + era * 400
  let doy := doe - (365 * yoe + Int.fdiv yoe 4 - Int.fdiv yoe 100)
  let mp := Int.fdiv (5 * doy + 2) 153
  let dd := doy - Int.fdiv (153 * mp + 2) 5 + 1
  let mm := if mp < 10 then mp + 3 else mp - 9
  ⟨if mm ≤ 2 then yy + 1 else yy, mm, dd⟩

def isLeap (y : Int) : Bool :=
  y % 4 = 0 && (¬ y % 100 = 0 || y % 400 = 0)

def daysInMonth (y m : Int) : Int :=
  if m = 2 then (if isLeap y then 29 else 28)
  else if m = 4 ∨ m = 6 ∨ m = 9 ∨ m = 11 then 30
  else 31

/-- `new Date(y, m-1, d)` (1-based month here) without the two-digit-year
rule: months overflow into years and days offset from day 1, exactly the
JS `Date` field normalisation. Returns the epoch-day number. -/
def mkDays (y m d : Int) : Int :=
  let t := y * 12 + (m - 1)
  ymdToDay ⟨Int.fdiv t 12, Int.fmod t 12 + 1, 1⟩ + (d - 1)

/-- `new Date(y, m-1, d)` including the JS two-digit-year rule
(`0 ≤ y ≤ 99` is read as `1900 + y`). -/
def newDateDays (y m d : Int) : Int :=
  mkDays (if 0 ≤ y ∧ y ≤ 99 then y + 1900 else y) m d

/-- `String(n).padStart(2, "0")`. -/
def pad2 (n : Int) : String :=
  let s := toString n
  if s.length < 2 then "0" ++ s else s

/-- `formatYMD` of src/utils/dates.ts (also the body of `todayYMD`):
unpadded year, two-digit month and day. -/
def fmtYMD (x : YMD) : String :=
  toString x.y ++ "-" ++ pad2 x.m ++ "-" ++ pad2 x.d

def fmtDay (d : Int) : String := fmtYMD (dayToYMD d)

/-- `monthKey` of src/utils/dates.ts. -/
def monthKeyStr (x : YMD) : String :=
  toString x.y ++ "-" ++ pad2 x.m

/-- `startOfMonth` (`new Date(y, month, 1)`). -/
def startOfMonthYMD (x : YMD) : YMD := ⟨x.y, x.m, 1⟩

/-- `startOfMonth` on an epoch-day value. -/
def startOfMonthDay (d : Int) : Int :=
  let x := dayToYMD d
  ymdToDay ⟨x.y, x.m, 1⟩

/-- `addMonths` (`new Date(y, month + k, 1)`). -/
def addMonthsYMD (x : YMD) (k : Int) : YMD :=
  let t := x.y * 12 + (x.m - 1) + k
  ⟨Int.fdiv t 12, Int.fmod t 12 + 1, 1⟩

/-! ### JS string parsing -/

/-- `s.split("-")` on the character list (single-character separator). -/
def splitDash : List Char → List (List Char)
  | [] => [[]]
  | c :: rest =>
    match splitDash rest with
    | [] => if c = '-' then [[], []] else [[c]]
    | g :: gs => if c = '-' then [] :: g :: gs else (c :: g) :: gs

def digitsVal (l : List Char) : Nat :=
  l.foldl (fun a c => a * 10 + (c.toNat - 48)) 0

def allDigits (l : List Char) : Bool :=
  decide (l ≠ []) && l.all (fun c => decide ('0' ≤ c) && decide (c ≤ '9'))

/-- `Number(part)` on one dash-separated component of a date string:
digit strings parse, the empty string is 0, anything else is NaN
(`none`). -/
def jsNumber (l : List Char) : Option Int :=
  if l = [] then some 0
  else if allDigits l then some (digitsVal l) else none

def partNum (parts : List (List Char)) (i : Nat) : Option Int :=
  match parts.get? i with
  | none => none
  | some l => jsNumber l

/-- The `[y, m, d] = ymd.split("-").map(Number)` destructuring shared by
`parseYMD` and `addDays`; `none` when any component is NaN/missing. -/
def ymdNums (s : String) : Option (Int × Int × Int) :=
  let parts := splitDash s.data
  match partNum parts 0, partNum parts 1, partNum parts 2 with
  | some a, some b, some c => some (a, b, c)
  | _, _, _ => none

/-- `parseYMD` of src/utils/dates.ts, returning the epoch-day number of
the (field-normalised) `new Date(y, m-1, d)`; `none` for null/undefined,
the empty string, or a NaN component. -/
def parseYMDStr (o : Option String) : Option Int :=
  match o with
  | none => none
  | some s =>
    if s == "" then none
    else (ymdNums s).map (fun x => newDateDays x.1 x.2.1 x.2.2)

/-- `new Date(s)` on a date-only string: strict ISO `YYYY-MM-DD` with an
in-range month and day parses (UTC midnight); everything else is an
Invalid Date (`none`). -/
def jsDateISO (s : String) : Option YMD :=
  match splitDash s.data with
  | [ys, ms, ds] =>
    if ys.length = 4 ∧ ms.length = 2 ∧ ds.length = 2 ∧
        allDigits ys = true ∧ allDigits ms = true ∧ allDigits ds = true then
      let y : Int := digitsVal ys
      let m : Int := digitsVal ms
      let d : Int := digitsVal ds
      if 1 ≤ m ∧ m ≤ 12 ∧ 1 ≤ d ∧ d ≤ daysInMonth y m then some ⟨y, m, d⟩ else none
    else none
  | _ => none

/-! ## Plant data model (src/types.ts) -/

inductive GrowthPhase | auto | active | quiescent
deriving DecidableEq, Repr

inductive PStatus | active | dormant | gifted | dead
deriving DecidableEq, Repr

inductive FertMode | pause | asNormal
deriving DecidableEq, Repr

inductive FertDuring | activeOnly | always | paused
deriving DecidableEq, Repr

inductive FertCadence | monthly | everyWateringQuarterStrength
deriving DecidableEq, Repr

inductive Guidance | springPreferred
deriving DecidableEq, Repr

inductive TaskAction | water | fertilise | flush | prune | repot | custom
deriving DecidableEq, Repr

structure SeasonalOverride where
  months : Option (List Int)
  water_factor : Option ℚ
  fertilise : Option FertMode
deriving DecidableEq, Repr

structure WaterCare where
  interval_days_hint : Option ℚ
  last : Option String
  flush_salts_months : Option Int
deriving DecidableEq, Repr

structure FertiliseCare where
  during : FertDuring
  cadence : FertCadence
  last : Option String
deriving DecidableEq, Repr

structure PruneCare where
  interval_days_hint : Option ℚ
  last : Option String
deriving DecidableEq, Repr

structure RepotCare where
  last : Option String
  guidance : Option Guidance
deriving DecidableEq, Repr

structure Care where
  water : Option WaterCare
  fertilise : Option FertiliseCare
  prune : Option PruneCare
  repot : Option RepotCare
deriving DecidableEq, Repr

/-- The fields of `Plant` read by the scheduling core (display-only
fields such as `latin`, `light`, `pot`, `tags` are omitted). -/
structure Plant where
  id : String
  common : String
  location : String
  acquired : Option String
  growth_phase : Option GrowthPhase
  seasonal_overrides : Option (List SeasonalOverride)
  care : Option Care
  status : Option PStatus
deriving DecidableEq, Repr

def getWater (p : Plant) : Option WaterCare := p.care.bind Care.water
def getFert (p : Plant) : Option FertiliseCare := p.care.bind Care.fertilise
def getPrune (p : Plant) : Option PruneCare := p.care.bind Care.prune
def getRepot (p : Plant) : Option RepotCare := p.care.bind Care.repot
def getLast (p : Plant) : Option String := (getWater p).bind WaterCare.last
def getHint (p : Plant) : ℚ := ((getWater p).bind WaterCare.interval_days_hint).getD 7

/-! ## Due-status evaluator (src/logic/watering.ts) -/

inductive WateringStatus | overdue | dueToday | soon | suppressed | notDue
deriving DecidableEq, Repr

/-- The JS number `Math.max(1, Math.round(hint / factor))`: finite in the
normal case, `+Infinity` when `factor = 0 < hint`, `NaN` when both are 0
(`Math.max(1, -Infinity) = 1` covers `hint < 0 = factor`). -/
inductive Thresh | fin (t : Int) | inf | nan
deriving DecidableEq, Repr

/-- Result record of `computeWaterDue`. `daysSince` is doubly optional:
the outer layer is field presence (absent in the no-record branch), the
inner layer distinguishes a NaN day count (`none`) from a finite one. -/
structure WateringComputation where
  due : Bool
  status : WateringStatus
  reason : String
  daysSince : Option (Option Int)
  threshold : Thresh
  nextDue : String
deriving DecidableEq, Repr

/-- `o.months?.includes(month)`. -/
def monthMatches (o : SeasonalOverride) (month : Int) : Bool :=
  (o.months.getD []).contains month

def waterFactorScan (month : Int) : List SeasonalOverride → ℚ
  | [] => 1
  | o :: rest =>
    if monthMatches o month then o.water_factor.getD 1 else waterFactorScan month rest

/-- `seasonalWaterFactor`: first override whose months contain the month
supplies the factor (default 1). -/
def seasonalWaterFactor (p : Plant) (month : Int) : ℚ :=
  waterFactorScan month (p.seasonal_overrides.getD [])

def suppressedScan (month : Int) : List SeasonalOverride → Bool
  | [] => false
  | o :: rest =>
    if ¬ monthMatches o month then suppressedScan month rest
    else if o.fertilise = some FertMode.pause then true
    else suppressedScan month rest

/-- `isSeasonallySuppressed`: note that the loop `continue`s past a
matching entry whose `fertilise` is not `"pause"`, so any matching entry
with a pause suppresses. -/
def isSeasonallySuppressed (p : Plant) (month : Int) : Bool :=
  suppressedScan month (p.seasonal_overrides.getD [])

/-- Exact rational division, written on numerator/denominator with the
kernel-reducible core operations (`ratDiv_eq_div` below identifies it
with Mathlib's field division). -/
def ratDiv (a b : ℚ) : ℚ := Rat.divInt (a.num * b.den) (a.den * b.num)

/-- `Math.round` on a finite JS number: floor(x + 1/2), computed as a
single Euclidean division on the numerator and denominator
(`jsRound_eq_floor` below). -/
def jsRound (q : ℚ) : Int := Int.fdiv (2 * q.num + q.den) (2 * q.den)

def computeThreshold (hint factor : ℚ) : Thresh :=
  if factor = 0 then
    if 0 < hint then Thresh.inf else if hint < 0 then Thresh.fin 1 else Thresh.nan
  else Thresh.fin (max 1 (jsRound (ratDiv hint factor)))

/-- `diffDays < threshold + 2` under IEEE comparison semantics. -/
def jsLtGrace (dd : Option Int) (t : Thresh) : Bool :=
  match dd, t with
  | some v, Thresh.fin w => decide (v < w + 2)
  | some _, Thresh.inf => true
  | _, _ => false

/-- `diffDays > threshold`. -/
def jsGt (dd : Option Int) (t : Thresh) : Bool :=
  match dd, t with
  | some v, Thresh.fin w => decide (w < v)
  | _, _ => false

/-- `diffDays === threshold`. -/
def jsEqT (dd : Option Int) (t : Thresh) : Bool :=
  match dd, t with
  | some v, Thresh.fin w => decide (v = w)
  | _, _ => false

/-- `threshold - diffDays <= 3`. -/
def jsRemLe3 (dd : Option Int) (t : Thresh) : Bool :=
  match dd, t with
  | some v, Thresh.fin w => decide (w - v ≤ 3)
  | _, _ => false

/-- Rendering of `threshold` in a template literal. -/
def threshStr : Thresh → String
  | Thresh.fin w => toString w
  | Thresh.inf => "Infinity"
  | Thresh.nan => "NaN"

/-- Rendering of `threshold - diffDays` in a template literal. -/
def remStr (dd : Option Int) (t : Thresh) : String
  :=
  match dd, t with
  | some v, Thresh.fin w => toString (w - v)
  | some _, Thresh.inf => "Infinity"
  | _, _ => "NaN"

/-- `addDays(ymd, days)` of src/utils/dates.ts (split/Number parse, field
normalisation, format); an unparseable input or non-finite day count
produces the `"NaN-NaN-NaN"` string an Invalid Date formats to. -/
def addDaysStr (s : String) (days : Thresh) : String :=
  match ymdNums s, days with
  | some x, Thresh.fin k => fmtYMD (dayToYMD (newDateDays x.1 x.2.1 x.2.2 + k))
  | _, _ => "NaN-NaN-NaN"

def noRecordResult (threshold : Thresh) (todayS : String) : WateringComputation :=
  ⟨true, WateringStatus.overdue, "No watering logged yet", none, threshold, todayS⟩

/-- The suppression/overdue/due-today/soon/not-due cascade of
`computeWaterDue` (source lines 50-106), reached once `last` parsed to a
finite non-negative `diffDays = dd`. -/
def wcAfterParse (p : Plant) (today : YMD) (s : String) (dd : Int) : WateringComputation :=
  let threshold := computeThreshold (getHint p) (seasonalWaterFactor p today.m)
  let nextDue := addDaysStr s threshold
  let ws := decide (p.growth_phase = some GrowthPhase.quiescent) || isSeasonallySuppressed p today.m
  if ws && jsLtGrace (some dd) threshold then
    ⟨false, WateringStatus.suppressed,
      (if p.growth_phase = some GrowthPhase.quiescent then "Quiescent phase" else "Seasonal pause"),
      some (some dd), threshold, nextDue⟩
  else if jsGt (some dd) threshold then
    ⟨true, WateringStatus.overdue,
      toString dd ++ " days since last watering (target " ++ threshStr threshold ++ ")",
      some (some dd), threshold, nextDue⟩
  else if jsEqT (some dd) threshold then
    ⟨true, WateringStatus.dueToday, "Hit interval hint", some (some dd), threshold, nextDue⟩
  else if jsRemLe3 (some dd) threshold then
    ⟨false, WateringStatus.soon, "Due in " ++ remStr (some dd) threshold ++ " day(s)",
      some (some dd), threshold, nextDue⟩
  else
    ⟨false, WateringStatus.notDue, remStr (some dd) threshold ++ " day(s) until hint interval",
      some (some dd), threshold, nextDue⟩

/-- The fall-through taken when `new Date(last)` is an Invalid Date: the
NaN day count fails every comparison and the final not-due return is
reached. -/
def wcNaNDiff (p : Plant) (today : YMD) (s : String) : WateringComputation :=
  let threshold := computeThreshold (getHint p) (seasonalWaterFactor p today.m)
  ⟨false, WateringStatus.notDue,
    remStr none threshold ++ " day(s) until hint interval",
    some none, threshold, addDaysStr s threshold⟩

/-- `computeWaterDue(p)` with the impure current date passed in: the
current month used for seasonal lookups is `today.m`. -/
def computeWaterDue (p : Plant) (today : YMD) : WateringComputation :=
  let threshold := computeThreshold (getHint p) (seasonalWaterFactor p today.m)
  match getLast p with
  | none => noRecordResult threshold (fmtYMD today)
  | some s =>
    if s == "" then noRecordResult threshold (fmtYMD today)
    else
      match (jsDateISO s).map (fun d1 => ymdToDay today - ymdToDay d1) with
      | some v =>
        if v < 0 then
          ⟨false, WateringStatus.notDue, "Last watering logged in the future",
            some (some v), threshold, addDaysStr s threshold⟩
        else wcAfterParse p today s v
      | none => wcNaNDiff p today s

lemma ymdToDay_epoch : ymdToDay ⟨1970, 1, 1⟩ = 0 := by decide

lemma dayToYMD_epoch : dayToYMD 0 = ⟨1970, 1, 1⟩ := by decide

lemma ratDiv_eq_div (a b : ℚ) : ratDiv a b = a / b := by
  rcases eq_or_ne b 0 with hb | hb
  · subst hb
    simp [ratDiv]
  · have hbn : b.num ≠ 0 := Rat.num_ne_zero.mpr hb
    have had : ((a.den : ℚ)) ≠ 0 := by
      exact_mod_cast a.den_nz
    have hbd : ((b.den : ℚ)) ≠ 0 := by
      exact_mod_cast b.den_nz
    have hbq : ((b.num : ℚ)) ≠ 0 := by exact_mod_cast hbn
    have hA : (a.num : ℚ) = a * a.den := (div_eq_iff had).mp (Rat.num_div_den a)
    have hB : (b.num : ℚ) = b * b.den := (div_eq_iff hbd).mp (Rat.num_div_den b)
    rw [ratDiv, Rat.divInt_eq_div]
    push_cast
    rw [div_eq_div_iff (mul_ne_zero had hbq) hb, hA, hB]
    ring

lemma jsRound_eq_floor (q : ℚ) : jsRound q = ⌊q + 1 / 2⌋ := by
  have hdpos : (0 : ℤ) < (q.den : ℤ) := by exact_mod_cast q.pos
  have hd2 : (0 : ℤ) < 2 * (q.den : ℤ) := by omega
  have hq : q + 1 / 2 = ((2 * q.num + (q.den : ℤ) : ℤ) : ℚ) / ((2 * (q.den : ℤ) : ℤ) : ℚ) := by
    have hden : ((q.den : ℚ)) ≠ 0 := by exact_mod_cast q.den_nz
    nth_rewrite 1 [← Rat.num_div_den q]
    push_cast
    field_simp
    ring
  rw [jsRound, Int.fdiv_eq_ediv _ (le_of_lt hd2)]
  have h1 := Int.ediv_add_emod (2 * q.num + (q.den : ℤ)) (2 * (q.den : ℤ))
  have h2 := Int.emod_nonneg (2 * q.num + (q.den : ℤ)) (by omega : (2 * (q.den : ℤ)) ≠ 0)
  have h3 := Int.emod_lt_of_pos (2 * q.num + (q.den : ℤ)) hd2
  symm
  rw [Int.floor_eq_iff, hq]
  constructor
  · rw [le_div_iff₀ (by exact_mod_cast hd2)]
    exact_mod_cast (by nlinarith : ((2 * q.num + (q.den : ℤ)) / (2 * (q.den : ℤ))) * (2 * (q.den : ℤ)) ≤ 2 * q.num + (q.den : ℤ))
  · rw [div_lt_iff₀ (by exact_mod_cast hd2)]
    exact_mod_cast (by nlinarith : 2 * q.num + (q.den : ℤ) < ((2 * q.num + (q.den : ℤ)) / (2 * (q.den : ℤ)) + 1) * (2 * (q.den : ℤ)))

lemma jsRound_intCast (n : ℤ) : jsRound ((n : ℚ)) = n := by
  rw [jsRound, Rat.num_intCast, Rat.den_intCast]
  rw [Int.fdiv_eq_ediv _ (by norm_num)]
  omega

/-! ## Monthly forecast generator (src/features/calendar.ts) -/

inductive TaskIntensity | normal | reduced | increased | paused
deriving DecidableEq, Repr

structure MonthlyTaskSummary where
  action : TaskAction
  dueDates : List String
  note : Option String
  intensity : Option TaskIntensity
deriving DecidableEq, Repr

structure PlantMonthlySchedule where
  plantId : String
  plantName : String
  location : String
  tasks : List MonthlyTaskSummary
deriving DecidableEq, Repr

structure MonthlySchedule where
  month : String
  plants : List PlantMonthlySchedule
deriving DecidableEq, Repr

structure CalendarOptions where
  months : Option Int
  startDate : Option YMD
  winterMonths : Option (List Int)
deriving DecidableEq, Repr

def findOverrideScan (month : Int) : List SeasonalOverride → Option SeasonalOverride
  | [] => none
  | o :: rest =>
    if monthMatches o month then some o else findOverrideScan month rest

/-- `findOverride`: the first entry whose months contain the month. -/
def findOverride (p : Plant) (month : Int) : Option SeasonalOverride :=
  match p.seasonal_overrides with
  | none => none
  | some ovs => findOverrideScan month ovs

/-- `typeof override?.water_factor === "number" && override.water_factor > 0
? override.water_factor : 1`. -/
def waterFactorOf (ov : Option SeasonalOverride) : ℚ :=
  match ov with
  | some o =>
    match o.water_factor with
    | some f => if 0 < f then f else 1
    | none => 1
  | none => 1

/-- `adjustedInterval = Math.max(1, Math.round(baseInterval / factor))`. -/
def waterIntervalOf (w : WaterCare) (ov : Option SeasonalOverride) : Int :=
  max 1 (jsRound (ratDiv (w.interval_days_hint.getD 7) (waterFactorOf ov)))

/-- The stepping loop `while (cursor <= monthEnd) { if (cursor >= monthStart)
push; cursor += interval }`, with fuel chosen so that the loop always runs to
its exit condition (the cursor advances by at least one day per iteration). -/
def stepDates (interval ms me : Int) : Nat → Int → List Int
  | 0, _ => []
  | Nat.succ fuel, cursor =>
    if cursor ≤ me then
      (if ms ≤ cursor then [cursor] else []) ++ stepDates interval ms me fuel (cursor + interval)
    else []

def computeWaterTasks (p : Plant) (ms me : Int) (ov : Option SeasonalOverride) :
    Option MonthlyTaskSummary :=
  match getWater p with
  | none => none
  | some water =>
    let adjustedInterval := waterIntervalOf water ov
    let lastWaterDate := parseYMDStr water.last
    let cursor0 :=
      match lastWaterDate with
      | some lw => lw + adjustedInterval
      | none => ms + max 0 (jsRound (ratDiv ((adjustedInterval : ℚ)) 2))
    let stepped := stepDates adjustedInterval ms me ((me - cursor0 + 1).toNat) cursor0
    let dueDates :=
      if stepped = [] then
        (let midpoint := ms + max 1 (jsRound ((adjustedInterval : ℚ)))
         if midpoint ≤ me then [midpoint] else [])
      else stepped
    let factor := waterFactorOf ov
    let intensity :=
      if factor < 1 then TaskIntensity.reduced
      else if 1 < factor then TaskIntensity.increased
      else TaskIntensity.normal
    some { action := TaskAction.water,
           dueDates := dueDates.map fmtDay,
           note := some ("Every ~" ++ toString adjustedInterval ++ " days" ++
             (if lastWaterDate.isSome then " (based on last log)" else "")),
           intensity := some intensity }

/-- Modelled from the spec: `addMonthsToDate` is imported by the forecast
module from the date utilities but is absent from src; per the spec's
"step forward one calendar month at a time", it adds one month with the
usual JS `Date` field normalisation. -/
def addMonthsToDate (d k : Int) : Int :=
  let x := dayToYMD d
  mkDays x.y (x.m + k) x.d

/-- Modelled from the spec: `differenceInMonths` is imported by the
forecast module from the date utilities but is absent from src; per the
spec's "compute whole calendar-months elapsed", it counts the whole
months from `b` to `a`. -/
def diffInMonths (a b : Int) : Int :=
  let A := dayToYMD a
  let B := dayToYMD b
  let base := (A.y * 12 + A.m) - (B.y * 12 + B.m)
  if A.d < B.d then base - 1 else base

/-- The loop `while (target < monthStart) target = addMonthsToDate(target, 1)`
(fuel-driven; each step advances the target by at least 28 days). -/
def stepMonthsFuel : Nat → Int → Int → Int
  | 0, _, t => t
  | Nat.succ fuel, ms, t =>
    if t < ms then stepMonthsFuel fuel ms (addMonthsToDate t 1) else t

/-- `Array.from(new Set(dueDates))`: deduplication keeping first
occurrences in insertion order. -/
def jsSetDedup (l : List String) : List String :=
  l.foldl (fun acc x => if x ∈ acc then acc else acc ++ [x]) []

def computeFertiliseTasks (p : Plant) (ms me : Int) (ov : Option SeasonalOverride)
    (winterMonths : Option (List Int)) : Option MonthlyTaskSummary :=
  match getFert p with
  | none => none
  | some fert =>
    if fert.during = FertDuring.paused then none
    else
      let monthNumber := (dayToYMD ms).m
      if (match ov with
          | some o => decide (o.fertilise = some FertMode.pause)
          | none => false) then
        some { action := TaskAction.fertilise, dueDates := [],
               note := some "Seasonal pause", intensity := some TaskIntensity.paused }
      else if fert.during = FertDuring.activeOnly ∧ (winterMonths.getD []).contains monthNumber then
        none
      else
        let dueDates1 : List String :=
          match fert.cadence with
          | FertCadence.monthly =>
            let dd :=
              match parseYMDStr fert.last with
              | some lastF =>
                let t0 := addMonthsToDate lastF 1
                let target := stepMonthsFuel ((ms - t0).toNat + 1) ms t0
                if target ≤ me then [fmtDay target] else []
              | none => []
            if dd = [] then
              (let span := max 0 (me - ms)
               [fmtDay (ms + min 14 span)])
            else dd
          | FertCadence.everyWateringQuarterStrength =>
            match computeWaterTasks p ms me ov with
            | some wt => wt.dueDates.take 2
            | none => []
        let dueDates2 :=
          if dueDates1 = [] then
            (let span := max 0 (me - ms)
             [fmtDay (ms + min 21 span)])
          else dueDates1
        some { action := TaskAction.fertilise,
               dueDates := jsSetDedup dueDates2,
               note := some (if fert.cadence = FertCadence.monthly then "Monthly feed"
                 else "Quarter-strength alongside watering"),
               intensity := some TaskIntensity.normal }

def computeFlushTask (p : Plant) (ms me : Int) : Option MonthlyTaskSummary :=
  match (getWater p).bind WaterCare.flush_salts_months with
  | none => none
  | some fi =>
    if fi ≤ 0 then none
    else
      match parseYMDStr p.acquired with
      | none => none
      | some acq =>
        let monthsSince := diffInMonths (startOfMonthDay ms) (startOfMonthDay acq)
        if monthsSince ≤ 0 then none
        else if ¬ monthsSince % fi = 0 then none
        else
          some { action := TaskAction.flush,
                 dueDates := [fmtDay (ms + min 2 (max 0 (me - ms)))],
                 note := some ("Flush salts (every " ++ toString fi ++ " months)"),
                 intensity := some TaskIntensity.normal }

/-- `computeIntervalTask` specialised to its only instantiation
(`IntervalTask = "prune"`). -/
def computeIntervalTask (p : Plant) (ms me : Int) : Option MonthlyTaskSummary :=
  match getPrune p with
  | none => none
  | some details =>
    match details.interval_days_hint with
    | none => none
    | some h =>
      if h = 0 then none
      else
        let interval := max 1 (jsRound h)
        let cursor0 :=
          match parseYMDStr details.last with
          | some l => l + interval
          | none => ms + interval
        let stepped := stepDates interval ms me ((me - cursor0 + 1).toNat) cursor0
        let dueDates :=
          if stepped = [] then (if ms + interval ≤ me then [ms + interval] else [])
          else stepped
        some { action := TaskAction.prune,
               dueDates := dueDates.map fmtDay,
               note := some ("Every ~" ++ toString interval ++ " days"),
               intensity := some TaskIntensity.normal }

/-- `lastRepot ?? parseYMD(plant.acquired)`. -/
def referenceDateOf (p : Plant) (r : RepotCare) : Option Int :=
  match parseYMDStr r.last with
  | some d => some d
  | none => parseYMDStr p.acquired

/-- The record returned by `computeRepotTask` once the intensity is
settled. -/
def repotSummary (repot : RepotCare) (ms : Int) (intensity : TaskIntensity) :
    MonthlyTaskSummary :=
  let note :=
    if repot.guidance = some Guidance.springPreferred then
      (if intensity = TaskIntensity.increased then "Spring repot window — overdue"
       else "Spring repot window")
    else
      (if intensity = TaskIntensity.increased then "Repot if rootbound"
       else "Review pot size")
  { action := TaskAction.repot, dueDates := [fmtDay ms],
    note := some note, intensity := some intensity }

def computeRepotTask (p : Plant) (ms : Int) (monthNumber : Int) : Option MonthlyTaskSummary :=
  match getRepot p with
  | none => none
  | some repot =>
    if repot.guidance = some Guidance.springPreferred ∧ ¬ monthNumber ∈ ([3, 4, 5] : List Int) then
      none
    else
      match referenceDateOf p repot with
      | some ref =>
        let monthsSince := diffInMonths (startOfMonthDay ms) (startOfMonthDay ref)
        if monthsSince < 12 then none
        else some (repotSummary repot ms
          (if 18 ≤ monthsSince then TaskIntensity.increased else TaskIntensity.normal))
      | none => some (repotSummary repot ms TaskIntensity.normal)

def collectTasksForMonth (p : Plant) (ms me : Int) (monthNumber : Int)
    (opts : CalendarOptions) : List MonthlyTaskSummary :=
  let override := findOverride p monthNumber
  (computeWaterTasks p ms me override).toList ++
  (computeFertiliseTasks p ms me override opts.winterMonths).toList ++
  (computeFlushTask p ms me).toList ++
  (computeIntervalTask p ms me).toList ++
  (computeRepotTask p ms monthNumber).toList

/-- The skip test `plant.status && plant.status !== "active"` (an absent
status is falsy, so only an explicit non-active status skips). -/
def plantSkipped (p : Plant) : Bool :=
  match p.status with
  | some s => decide (¬ s = PStatus.active)
  | none => false

def monthBucket (plants : List Plant) (opts : CalendarOptions) (monthDate : YMD) :
    MonthlySchedule :=
  let ms := ymdToDay monthDate
  let me := ymdToDay (addMonthsYMD monthDate 1) - 1
  { month := monthKeyStr monthDate,
    plants := plants.filterMap (fun plant =>
      if plantSkipped plant then none
      else
        let tasks := collectTasksForMonth plant ms me monthDate.m opts
        if tasks.isEmpty then none
        else some { plantId := plant.id, plantName := plant.common,
                    location := plant.location, tasks := tasks }) }

/-- `computeMonthlyCareSchedule(plants, options)` with the impure
`new Date()` fallback for a missing `startDate` passed in as `now`. -/
def computeMonthlyCareSchedule (plants : List Plant) (opts : CalendarOptions) (now : YMD) :
    List MonthlySchedule :=
  let monthsN := (max 1 (opts.months.getD 6)).toNat
  let base := startOfMonthYMD (opts.startDate.getD now)
  (List.range monthsN).map (fun offset => monthBucket plants opts (addMonthsYMD base (offset : Int)))

/-! ## Helper lemmas -/

lemma computeWaterDue_noRecord (p : Plant) (today : YMD) (h : getLast p = none) :
    computeWaterDue p today =
      noRecordResult (computeThreshold (getHint p) (seasonalWaterFactor p today.m))
        (fmtYMD today) := by
  simp [computeWaterDue, h]

lemma jsDateISO_empty : jsDateISO "" = none := rfl

lemma computeWaterDue_parsed (p : Plant) (today : YMD) (s : String) (ld : YMD)
    (hl : getLast p = some s) (hp : jsDateISO s = some ld)
    (hnn : 0 ≤ ymdToDay today - ymdToDay ld) :
    computeWaterDue p today = wcAfterParse p today s (ymdToDay today - ymdToDay ld) := by
  have hs : ¬ s = "" := by
    intro h
    rw [h, jsDateISO_empty] at hp
    exact Option.noConfusion hp
  have hbeq : (s == "") = false := by
    rw [beq_eq_false_iff_ne]
    exact hs
  simp only [computeWaterDue, hl, hbeq, Bool.false_eq_true, if_false, hp, Option.map_some']
  rw [if_neg (by omega)]

lemma wcAfterParse_threshold (p : Plant) (today : YMD) (s : String) (dd : Int) :
    (wcAfterParse p today s dd).threshold =
      computeThreshold (getHint p) (seasonalWaterFactor p today.m) := by
  simp only [wcAfterParse]
  split_ifs <;> rfl

lemma computeWaterDue_threshold (p : Plant) (today : YMD) :
    (computeWaterDue p today).threshold =
      computeThreshold (getHint p) (seasonalWaterFactor p today.m) := by
  unfold computeWaterDue
  cases hl : getLast p with
  | none => rfl
  | some s =>
    by_cases hs : (s == "")
    · simp only [hs, if_true]
      rfl
    · simp only [hs, Bool.false_eq_true, if_false]
      cases hm : (jsDateISO s).map (fun d1 => ymdToDay today - ymdToDay d1) with
      | none => rfl
      | some v =>
        by_cases hv : v < 0
        · simp [hv]
        · simp only [hv, if_false]
          exact wcAfterParse_threshold p today s v

lemma suppressedScan_iff (month : Int) (l : List SeasonalOverride) :
    suppressedScan month l = true ↔
      ∃ o ∈ l, monthMatches o month = true ∧ o.fertilise = some FertMode.pause := by
  induction l with
  | nil => simp [suppressedScan]
  | cons o rest ih =>
    by_cases hm : monthMatches o month
    · by_cases hf : o.fertilise = some FertMode.pause
      · simp [suppressedScan, hm, hf]
      · simp [suppressedScan, hm, hf, ih]
    · simp [suppressedScan, hm, ih]

lemma isSeasonallySuppressed_iff (p : Plant) (month : Int) :
    isSeasonallySuppressed p month = true ↔
      ∃ o ∈ p.seasonal_overrides.getD [], monthMatches o month = true ∧
        o.fertilise = some FertMode.pause := by
  exact suppressedScan_iff month _

lemma findOverrideScan_eq_find (month : Int) (l : List SeasonalOverride) :
    findOverrideScan month l = l.find? (fun o => monthMatches o month) := by
  induction l with
  | nil => rfl
  | cons o rest ih =>
    by_cases hm : monthMatches o month
    · simp [findOverrideScan, hm, List.find?]
    · simp [findOverrideScan, hm, List.find?, ih]

lemma waterFactorScan_eq_find (month : Int) (l : List SeasonalOverride) :
    waterFactorScan month l =
      ((l.find? (fun o => monthMatches o month)).map (fun o => o.water_factor.getD 1)).getD 1 := by
  induction l with
  | nil => rfl
  | cons o rest ih =>
    by_cases hm : monthMatches o month
    · simp [waterFactorScan, hm, List.find?]
    · simp [waterFactorScan, hm, List.find?, ih]

lemma suppressedScan_eq_any (month : Int) (l : List SeasonalOverride) :
    suppressedScan month l =
      l.any (fun o => monthMatches o month && decide (o.fertilise = some FertMode.pause)) := by
  induction l with
  | nil => rfl
  | cons o rest ih =>
    by_cases hm : monthMatches o month
    · by_cases hf : o.fertilise = some FertMode.pause
      · simp [suppressedScan, hm, hf]
      · simp [suppressedScan, hm, hf, ih]
    · simp [suppressedScan, hm, ih]

lemma noSuppression_bool (p : Plant) (m : Int) (d w : Int)
    (hns : ¬((p.growth_phase = some GrowthPhase.quiescent ∨
        isSeasonallySuppressed p m = true) ∧ d < w + 2)) :
    ((decide (p.growth_phase = some GrowthPhase.quiescent) || isSeasonallySuppressed p m) &&
      jsLtGrace (some d) (Thresh.fin w)) = false := by
  by_cases hg : d < w + 2
  · have h1 : ¬(p.growth_phase = some GrowthPhase.quiescent ∨
        isSeasonallySuppressed p m = true) := fun h => hns ⟨h, hg⟩
    push_neg at h1
    simp [jsLtGrace, h1.1, h1.2]
  · simp [jsLtGrace, hg]

/-! ## Claim theorems -/

/-- C7: a plant with no recorded `lastPerformed` watering date is always
classified `overdue` with `due = true` and `nextDue = today`, whatever
`today`, the growth phase and the seasonal overrides are. -/
theorem no_record_always_overdue (p : Plant) (today : YMD)
    (h : getLast p = none) :
    (computeWaterDue p today).status = WateringStatus.overdue ∧
    (computeWaterDue p today).due = true ∧
    (computeWaterDue p today).nextDue = fmtYMD today := by
  rw [computeWaterDue_noRecord p today h]
  exact ⟨rfl, rfl, rfl⟩

def pW7 : Plant :=
  { id := "w7", common := "Aloe", location := "Sill", acquired := none,
    growth_phase := some GrowthPhase.quiescent,
    seasonal_overrides := some [{ months := some [6], water_factor := some (mkRat 6 10),
                                  fertilise := some FertMode.pause }],
    care := some { water := some { interval_days_hint := some 7, last := none,
                                   flush_salts_months := none },
                   fertilise := none, prune := none, repot := none },
    status := some PStatus.active }

theorem no_record_always_overdue_witness :
    getLast pW7 = none ∧
    ((computeWaterDue pW7 ⟨2025, 6, 15⟩).status = WateringStatus.overdue ∧
     (computeWaterDue pW7 ⟨2025, 6, 15⟩).due = true ∧
     (computeWaterDue pW7 ⟨2025, 6, 15⟩).nextDue = fmtYMD ⟨2025, 6, 15⟩) :=
  ⟨rfl, no_record_always_overdue pW7 ⟨2025, 6, 15⟩ rfl⟩

/-- C1: for a plant with a parseable `lastPerformed` and non-negative
`daysSince`, and a finite threshold, the evaluator returns `suppressed`
with `due = false` exactly when (the phase is quiescent, or some override
matching the current month carries `fertilise = "pause"`) and
`daysSince < threshold + 2`. -/
theorem watering_suppression_characterisation
    (p : Plant) (today : YMD) (s : String) (ld : YMD) (t : Int)
    (hl : getLast p = some s) (hp : jsDateISO s = some ld)
    (hnn : 0 ≤ ymdToDay today - ymdToDay ld)
    (ht : computeThreshold (getHint p) (seasonalWaterFactor p today.m) = Thresh.fin t) :
    (((computeWaterDue p today).status = WateringStatus.suppressed ∧
        (computeWaterDue p today).due = false) ↔
      ((p.growth_phase = some GrowthPhase.quiescent ∨
          ∃ o ∈ p.seasonal_overrides.getD [], monthMatches o today.m = true ∧
            o.fertilise = some FertMode.pause) ∧
        ymdToDay today - ymdToDay ld < t + 2)) := by
  rw [computeWaterDue_parsed p today s ld hl hp hnn]
  simp only [wcAfterParse, ht]
  set d := ymdToDay today - ymdToDay ld with hd
  have hgrace : jsLtGrace (some d) (Thresh.fin t) = decide (d < t + 2) := rfl
  by_cases hb : ((decide (p.growth_phase = some GrowthPhase.quiescent) ||
      isSeasonallySuppressed p today.m) && jsLtGrace (some d) (Thresh.fin t)) = true
  · rw [if_pos hb]
    rw [Bool.and_eq_true, Bool.or_eq_true, decide_eq_true_eq, hgrace, decide_eq_true_eq] at hb
    apply iff_of_true
    · exact ⟨rfl, rfl⟩
    · obtain ⟨hor, hlt⟩ := hb
      refine ⟨?_, hlt⟩
      rcases hor with hq | hsup
      · exact Or.inl hq
      · exact Or.inr ((isSeasonallySuppressed_iff p today.m).mp hsup)
  · rw [if_neg hb]
    apply iff_of_false
    · split_ifs <;> simp
    · rw [Bool.and_eq_true, Bool.or_eq_true, decide_eq_true_eq, hgrace, decide_eq_true_eq] at hb
      push_neg at hb
      rintro ⟨hor, hlt⟩
      rcases hor with hq | hex
      · have := hb (Or.inl hq)
        omega
      · have := hb (Or.inr ((isSeasonallySuppressed_iff p today.m).mpr hex))
        omega

def pW1 : Plant :=
  { id := "w1", common := "Cactus", location := "Sill", acquired := none,
    growth_phase := some GrowthPhase.quiescent, seasonal_overrides := none,
    care := some { water := some { interval_days_hint := some 7, last := some "2025-06-01",
                                   flush_salts_months := none },
                   fertilise := none, prune := none, repot := none },
    status := some PStatus.active }

theorem watering_suppression_characterisation_witness :
    (computeWaterDue pW1 ⟨2025, 6, 5⟩).status = WateringStatus.suppressed ∧
    (computeWaterDue pW1 ⟨2025, 6, 5⟩).due = false :=
  (watering_suppression_characterisation pW1 ⟨2025, 6, 5⟩ "2025-06-01" ⟨2025, 6, 1⟩ 7
    (by decide) (by decide) (by decide) (by decide)).mpr (by decide)

/-- C2: with a parseable `lastPerformed`, non-negative `daysSince`,
finite threshold and no suppression applying, the evaluator classifies
exactly by the cascade overdue / due-today / soon / not-due (`soon`
hitting exactly 1 ≤ threshold − daysSince ≤ 3), and never yields
`suppressed`; in particular `daysSince = threshold` is `due-today`. -/
theorem watering_cascade_classification
    (p : Plant) (today : YMD) (s : String) (ld : YMD) (t : Int)
    (hl : getLast p = some s) (hp : jsDateISO s = some ld)
    (hnn : 0 ≤ ymdToDay today - ymdToDay ld)
    (ht : computeThreshold (getHint p) (seasonalWaterFactor p today.m) = Thresh.fin t)
    (hns : ¬((p.growth_phase = some GrowthPhase.quiescent ∨
        isSeasonallySuppressed p today.m = true) ∧
        ymdToDay today - ymdToDay ld < t + 2)) :
    (((computeWaterDue p today).status = WateringStatus.overdue ∧
        (computeWaterDue p today).due = true) ↔ t < ymdToDay today - ymdToDay ld) ∧
    (((computeWaterDue p today).status = WateringStatus.dueToday ∧
        (computeWaterDue p today).due = true) ↔ ymdToDay today - ymdToDay ld = t) ∧
    (((computeWaterDue p today).status = WateringStatus.soon ∧
        (computeWaterDue p today).due = false) ↔
      (1 ≤ t - (ymdToDay today - ymdToDay ld) ∧ t - (ymdToDay today - ymdToDay ld) ≤ 3)) ∧
    (((computeWaterDue p today).status = WateringStatus.notDue ∧
        (computeWaterDue p today).due = false) ↔
      3 < t - (ymdToDay today - ymdToDay ld)) ∧
    ¬ (computeWaterDue p today).status = WateringStatus.suppressed := by
  rw [computeWaterDue_parsed p today s ld hl hp hnn]
  simp only [wcAfterParse, ht]
  set d := ymdToDay today - ymdToDay ld with hd
  rw [if_neg (by rw [noSuppression_bool p today.m d t hns]; exact Bool.false_ne_true)]
  simp only [jsGt, jsEqT, jsRemLe3]
  split_ifs with ho he hs3 <;>
    simp only [decide_eq_true_eq] at * <;>
    refine ⟨?_, ?_, ?_, ?_, ?_⟩ <;> simp <;> omega

def pW2 : Plant :=
  { id := "w2", common := "Basil", location := "Desk", acquired := none,
    growth_phase := some GrowthPhase.active, seasonal_overrides := none,
    care := some { water := some { interval_days_hint := some 7, last := some "2025-06-03",
                                   flush_salts_months := none },
                   fertilise := none, prune := none, repot := none },
    status := some PStatus.active }

theorem watering_cascade_classification_witness :
    (computeWaterDue pW2 ⟨2025, 6, 10⟩).status = WateringStatus.dueToday ∧
    (computeWaterDue pW2 ⟨2025, 6, 10⟩).due = true :=
  ((watering_cascade_classification pW2 ⟨2025, 6, 10⟩ "2025-06-03" ⟨2025, 6, 3⟩ 7
    (by decide) (by decide) (by decide) (by decide) (by decide)).2.1).mpr (by decide)

/-- Position of a status in the ordering not-due → soon → due-today →
overdue used by the monotonicity property. -/
def statusRank : WateringStatus → Nat
  | WateringStatus.notDue => 0
  | WateringStatus.soon => 1
  | WateringStatus.dueToday => 2
  | WateringStatus.overdue => 3
  | WateringStatus.suppressed => 0

/-- The pure overdue / due-today / soon / not-due cascade of source lines
64-106 as a function of a finite threshold and day count. -/
def cascadeStatusFin (w d : Int) : WateringStatus :=
  if w < d then WateringStatus.overdue
  else if d = w then WateringStatus.dueToday
  else if w - d ≤ 3 then WateringStatus.soon
  else WateringStatus.notDue

lemma wcAfterParse_status_noSupp (p : Plant) (today : YMD) (s : String) (d w : Int)
    (ht : computeThreshold (getHint p) (seasonalWaterFactor p today.m) = Thresh.fin w)
    (hns : ¬((p.growth_phase = some GrowthPhase.quiescent ∨
        isSeasonallySuppressed p today.m = true) ∧ d < w + 2)) :
    (wcAfterParse p today s d).status = cascadeStatusFin w d := by
  simp only [wcAfterParse, ht]
  have hb := noSuppression_bool p today.m d w hns
  simp only [hb, Bool.false_eq_true, if_false, jsGt, jsEqT, jsRemLe3, cascadeStatusFin,
    decide_eq_true_eq]
  split_ifs <;> rfl

lemma cascadeStatusFin_rank_mono (w d1 d2 : Int) (h : d1 ≤ d2) :
    statusRank (cascadeStatusFin w d1) ≤ statusRank (cascadeStatusFin w d2) := by
  unfold cascadeStatusFin
  split_ifs <;> simp [statusRank] <;> omega

/-- C8: holding the plant, the parsed `lastPerformed` and the (finite)
threshold fixed, and with suppression not applying at either date, a
later `today` (larger `daysSince`) never moves the status backwards in
the ordering not-due → soon → due-today → overdue. -/
theorem watering_status_monotone
    (p : Plant) (t1 t2 : YMD) (s : String) (ld : YMD) (w : Int)
    (hl : getLast p = some s) (hp : jsDateISO s = some ld)
    (h1 : 0 ≤ ymdToDay t1 - ymdToDay ld)
    (h12 : ymdToDay t1 - ymdToDay ld ≤ ymdToDay t2 - ymdToDay ld)
    (ht1 : computeThreshold (getHint p) (seasonalWaterFactor p t1.m) = Thresh.fin w)
    (ht2 : computeThreshold (getHint p) (seasonalWaterFactor p t2.m) = Thresh.fin w)
    (hns1 : ¬((p.growth_phase = some GrowthPhase.quiescent ∨
        isSeasonallySuppressed p t1.m = true) ∧ ymdToDay t1 - ymdToDay ld < w + 2))
    (hns2 : ¬((p.growth_phase = some GrowthPhase.quiescent ∨
        isSeasonallySuppressed p t2.m = true) ∧ ymdToDay t2 - ymdToDay ld < w + 2)) :
    statusRank (computeWaterDue p t1).status ≤ statusRank (computeWaterDue p t2).status := by
  have h2 : 0 ≤ ymdToDay t2 - ymdToDay ld := le_trans h1 h12
  rw [computeWaterDue_parsed p t1 s ld hl hp h1,
    computeWaterDue_parsed p t2 s ld hl hp h2]
  rw [wcAfterParse_status_noSupp p t1 s _ w ht1 hns1,
    wcAfterParse_status_noSupp p t2 s _ w ht2 hns2]
  exact cascadeStatusFin_rank_mono w _ _ h12

theorem watering_status_monotone_witness :
    statusRank (computeWaterDue pW2 ⟨2025, 6, 8⟩).status ≤
      statusRank (computeWaterDue pW2 ⟨2025, 6, 13⟩).status :=
  watering_status_monotone pW2 ⟨2025, 6, 8⟩ ⟨2025, 6, 13⟩ "2025-06-03" ⟨2025, 6, 3⟩ 7
    (by decide) (by decide) (by decide) (by decide) (by decide) (by decide)
    (by decide) (by decide)

def oC4first : SeasonalOverride :=
  { months := some [5], water_factor := some 1, fertilise := some FertMode.asNormal }

def oC4second : SeasonalOverride :=
  { months := some [5], water_factor := some 5, fertilise := some FertMode.pause }

def pC4a : Plant :=
  { id := "c4", common := "Ivy", location := "Wall", acquired := none,
    growth_phase := some GrowthPhase.auto, seasonal_overrides := some [oC4first],
    care := some { water := some { interval_days_hint := some 7, last := some "2025-05-02",
                                   flush_salts_months := none },
                   fertilise := none, prune := none, repot := none },
    status := some PStatus.active }

def pC4b : Plant :=
  { id := "c4", common := "Ivy", location := "Wall", acquired := none,
    growth_phase := some GrowthPhase.auto, seasonal_overrides := some [oC4first, oC4second],
    care := some { water := some { interval_days_hint := some 7, last := some "2025-05-02",
                                   flush_salts_months := none },
                   fertilise := none, prune := none, repot := none },
    status := some PStatus.active }

/-- C4 counterexample: two overrides both matching May; the claim says the
entries after the first matching one have no effect on the evaluator's
suppression, but appending `oC4second` (a pause entry listed after the
matching `oC4first`) flips the evaluator from `overdue` to `suppressed`,
even though `findOverride` still resolves to the first entry. -/
theorem override_first_match_counterexample :
    (computeWaterDue pC4b ⟨2025, 5, 10⟩).status = WateringStatus.suppressed ∧
    (computeWaterDue pC4a ⟨2025, 5, 10⟩).status = WateringStatus.overdue ∧
    findOverride pC4b 5 = some oC4first ∧
    ¬ oC4first.fertilise = some FertMode.pause := by decide

/-- C4 amended: the first matching override decides the water factor and
the forecast's override resolution (`find?` semantics), but the
evaluator's suppression scan reads every matching entry: it suppresses
when any matching entry carries `fertilise = "pause"`. -/
theorem override_resolution_amended :
    (∀ (p : Plant) (month : Int),
        findOverride p month =
          (p.seasonal_overrides.getD []).find? (fun o => monthMatches o month)) ∧
    (∀ (p : Plant) (month : Int),
        seasonalWaterFactor p month =
          (((p.seasonal_overrides.getD []).find? (fun o => monthMatches o month)).map
            (fun o => o.water_factor.getD 1)).getD 1) ∧
    (∀ (p : Plant) (month : Int),
        isSeasonallySuppressed p month =
          (p.seasonal_overrides.getD []).any
            (fun o => monthMatches o month && decide (o.fertilise = some FertMode.pause))) := by
  refine ⟨?_, ?_, ?_⟩
  · intro p month
    cases h : p.seasonal_overrides with
    | none => simp [findOverride, h]
    | some l => simp [findOverride, h, findOverrideScan_eq_find]
  · intro p month
    exact waterFactorScan_eq_find month _
  · intro p month
    exact suppressedScan_eq_any month _

def oC5 : SeasonalOverride :=
  { months := some [6], water_factor := some (mkRat (-1) 1), fertilise := none }

def pC5 : Plant :=
  { id := "c5", common := "Rose", location := "Porch", acquired := none,
    growth_phase := some GrowthPhase.auto,
    seasonal_overrides := some [oC5],
    care := some { water := some { interval_days_hint := some 7, last := some "2025-06-05",
                                   flush_salts_months := none },
                   fertilise := none, prune := none, repot := none },
    status := some PStatus.active }

/-- C5 counterexample: with `intervalDaysHint = 7` and a matching override
whose water factor is -1, the evaluator's threshold is
`max(1, round(7 / -1)) = 1`, not the hint 7 the claim asserts. -/
theorem water_factor_invalid_counterexample :
    (computeWaterDue pC5 ⟨2025, 6, 10⟩).threshold = Thresh.fin 1 ∧
    ¬ (computeWaterDue pC5 ⟨2025, 6, 10⟩).threshold = Thresh.fin 7 := by decide

/-- C5 amended: the forecast's water computation guards the factor
(`> 0 ? factor : 1`), so a factor ≤ 0 is treated as 1 there and the
adjusted interval is `max(1, round(hint))`; the evaluator applies the raw
factor instead: with a positive hint, a negative factor collapses the
threshold to 1 and a zero factor makes it infinite. -/
theorem water_factor_invalid_amended :
    (∀ (o : SeasonalOverride) (f : ℚ), o.water_factor = some f → f ≤ 0 →
        waterFactorOf (some o) = 1) ∧
    (∀ (w : WaterCare) (o : SeasonalOverride) (f : ℚ), o.water_factor = some f → f ≤ 0 →
        waterIntervalOf w (some o) = max 1 (jsRound (w.interval_days_hint.getD 7))) ∧
    (∀ (p : Plant) (today : YMD), 0 < getHint p → seasonalWaterFactor p today.m < 0 →
        (computeWaterDue p today).threshold = Thresh.fin 1) ∧
    (∀ (p : Plant) (today : YMD), 0 < getHint p → seasonalWaterFactor p today.m = 0 →
        (computeWaterDue p today).threshold = Thresh.inf) := by
  have hfac : ∀ (o : SeasonalOverride) (f : ℚ), o.water_factor = some f → f ≤ 0 →
      waterFactorOf (some o) = 1 := by
    intro o f hf hle
    simp only [waterFactorOf, hf]
    exact if_neg (not_lt.mpr hle)
  refine ⟨hfac, ?_, ?_, ?_⟩
  · intro w o f hf hle
    unfold waterIntervalOf
    rw [hfac o f hf hle, ratDiv_eq_div, div_one]
  · intro p today hh hf
    rw [computeWaterDue_threshold]
    unfold computeThreshold
    rw [if_neg hf.ne]
    have hlt : jsRound (ratDiv (getHint p) (seasonalWaterFactor p today.m)) < 1 := by
      rw [jsRound_eq_floor, ratDiv_eq_div]
      have hq : getHint p / seasonalWaterFactor p today.m < 0 := div_neg_of_pos_of_neg hh hf
      have h2 : getHint p / seasonalWaterFactor p today.m + 1 / 2 < ((1 : ℤ) : ℚ) := by
        push_cast
        linarith
      exact Int.floor_lt.mpr h2
    rw [max_eq_left (by omega)]
  · intro p today hh hf
    rw [computeWaterDue_threshold]
    unfold computeThreshold
    rw [if_pos hf, if_pos hh]

theorem water_factor_invalid_amended_witness :
    waterFactorOf (some oC5) = 1 ∧
    (computeWaterDue pC5 ⟨2025, 6, 10⟩).threshold = Thresh.fin 1 :=
  ⟨water_factor_invalid_amended.1 oC5 (mkRat (-1) 1) rfl (by decide),
   water_factor_invalid_amended.2.2.1 pC5 ⟨2025, 6, 10⟩ (by decide) (by decide)⟩

def wC6 : WaterCare :=
  { interval_days_hint := some 7, last := some "not-a-date", flush_salts_months := none }

def pC6 : Plant :=
  { id := "c6", common := "Mint", location := "Step", acquired := none,
    growth_phase := some GrowthPhase.auto, seasonal_overrides := none,
    care := some { water := some wC6, fertilise := none, prune := none, repot := none },
    status := some PStatus.active }

def qC6 : Plant :=
  { id := "c6", common := "Mint", location := "Step", acquired := none,
    growth_phase := some GrowthPhase.auto, seasonal_overrides := none,
    care := some { water := some { interval_days_hint := some 7, last := none,
                                   flush_salts_months := none },
                   fertilise := none, prune := none, repot := none },
    status := some PStatus.active }

/-- C6 counterexample: a plant whose `lastPerformed` is the non-empty but
unparseable string "not-a-date" is classified `not-due` with `due = false`
by the evaluator (the NaN day count fails every comparison), not the
`overdue`/`due = true` no-record result the claim asserts. -/
theorem unparseable_last_counterexample :
    (computeWaterDue pC6 ⟨2025, 6, 10⟩).status = WateringStatus.notDue ∧
    (computeWaterDue pC6 ⟨2025, 6, 10⟩).due = false ∧
    ¬ ((computeWaterDue pC6 ⟨2025, 6, 10⟩).status = WateringStatus.overdue ∧
       (computeWaterDue pC6 ⟨2025, 6, 10⟩).due = true) := by decide

/-- C6 amended: a non-empty unparseable `lastPerformed` makes the
evaluator fall through its NaN comparisons to `not-due` with
`due = false` (not the no-record `overdue`); the forecast generator's
`parseYMD` yields absent for it, so its water computation behaves exactly
as if the date were missing. -/
theorem unparseable_last_amended :
    (∀ (p : Plant) (today : YMD) (s : String), getLast p = some s → ¬ s = "" →
        jsDateISO s = none →
        (computeWaterDue p today).status = WateringStatus.notDue ∧
        (computeWaterDue p today).due = false) ∧
    (∀ (p q : Plant) (w : WaterCare) (ms me : Int) (ov : Option SeasonalOverride) (s : String),
        getWater p = some w → w.last = some s → parseYMDStr (some s) = none →
        getWater q = some { interval_days_hint := w.interval_days_hint, last := none,
                            flush_salts_months := w.flush_salts_months } →
        computeWaterTasks p ms me ov = computeWaterTasks q ms me ov) := by
  constructor
  · intro p today s hl hs hpn
    have hbeq : (s == "") = false := by
      rw [beq_eq_false_iff_ne]
      exact hs
    simp only [computeWaterDue, hl, hbeq, Bool.false_eq_true, if_false, hpn, Option.map_none']
    exact ⟨rfl, rfl⟩
  · intro p q w ms me ov s hpw hlast hparse hqw
    unfold computeWaterTasks
    rw [hpw, hqw]
    simp only [hlast, hparse]
    rfl

theorem unparseable_last_amended_witness :
    ((computeWaterDue pC6 ⟨2025, 6, 10⟩).status = WateringStatus.notDue ∧
     (computeWaterDue pC6 ⟨2025, 6, 10⟩).due = false) ∧
    computeWaterTasks pC6 20179 20208 none = computeWaterTasks qC6 20179 20208 none :=
  ⟨unparseable_last_amended.1 pC6 ⟨2025, 6, 10⟩ "not-a-date" rfl (by decide) (by decide),
   unparseable_last_amended.2 pC6 qC6 wC6 20179 20208 none "not-a-date" rfl rfl
     (by decide) rfl⟩

lemma schedule_row_origin (plants : List Plant) (opts : CalendarOptions) (now : YMD)
    (b : MonthlySchedule) (row : PlantMonthlySchedule)
    (hb : b ∈ computeMonthlyCareSchedule plants opts now) (hr : row ∈ b.plants) :
    ∃ p monthDate, p ∈ plants ∧ plantSkipped p = false ∧
      row = { plantId := p.id, plantName := p.common, location := p.location,
              tasks := collectTasksForMonth p (ymdToDay monthDate)
                (ymdToDay (addMonthsYMD monthDate 1) - 1) monthDate.m opts } := by
  unfold computeMonthlyCareSchedule at hb
  rw [List.mem_map] at hb
  obtain ⟨off, _, hbeq⟩ := hb
  subst hbeq
  unfold monthBucket at hr
  simp only [List.mem_filterMap] at hr
  obtain ⟨p, hp, hpe⟩ := hr
  refine ⟨p, addMonthsYMD (startOfMonthYMD (opts.startDate.getD now)) (off : Int), hp, ?_, ?_⟩
  · cases hsk : plantSkipped p with
    | true =>
      rw [hsk] at hpe
      simp at hpe
    | false => rfl
  · cases hsk : plantSkipped p with
    | true =>
      rw [hsk] at hpe
      simp at hpe
    | false =>
      rw [hsk] at hpe
      simp only [Bool.false_eq_true, if_false] at hpe
      by_cases hemp : (collectTasksForMonth p
          (ymdToDay (addMonthsYMD (startOfMonthYMD (opts.startDate.getD now)) (off : Int)))
          (ymdToDay (addMonthsYMD (addMonthsYMD (startOfMonthYMD (opts.startDate.getD now))
            (off : Int)) 1) - 1)
          (addMonthsYMD (startOfMonthYMD (opts.startDate.getD now)) (off : Int)).m opts).isEmpty
      · rw [if_pos hemp] at hpe
        simp at hpe
      · rw [if_neg hemp] at hpe
        exact (Option.some.inj hpe).symm

lemma computeWaterTasks_some (p : Plant) (w : WaterCare) (ms me : Int)
    (ov : Option SeasonalOverride) (hw : getWater p = some w) :
    ∃ t, computeWaterTasks p ms me ov = some t ∧ t.action = TaskAction.water ∧
      (ms + waterIntervalOf w ov ≤ me → t.dueDates ≠ []) := by
  simp only [computeWaterTasks, hw]
  refine ⟨_, rfl, rfl, ?_⟩
  intro hle
  simp only [ne_eq, List.map_eq_nil_iff]
  split
  · split
    · simp
    · rename_i hmid
      rw [jsRound_intCast] at hmid
      have h1 : (1 : Int) ≤ waterIntervalOf w ov := le_max_left 1 _
      rw [max_eq_right h1] at hmid
      exact absurd hle hmid
  · rename_i hstep
    exact hstep

def pC3 : Plant :=
  { id := "c3", common := "LongInterval", location := "Hall", acquired := none,
    growth_phase := some GrowthPhase.auto, seasonal_overrides := none,
    care := some { water := some { interval_days_hint := some 40, last := some "2025-01-01",
                                   flush_salts_months := none },
                   fertilise := none, prune := none, repot := none },
    status := some PStatus.active }

def optsC3 : CalendarOptions :=
  { months := some 1, startDate := some ⟨2025, 4, 1⟩, winterMonths := none }

/-- C3 counterexample: an active plant with `intervalDaysHint = 40` and
`lastPerformed = 2025-01-01` appears in the April 2025 forecast bucket
with a water task whose `dueDates` list is empty: the interval stepping
(Feb 10, Mar 22, May 1) skips April and the fallback `monthStart + 40` =
May 11 falls past the month end, so it is not emitted. -/
theorem forecast_water_coverage_counterexample :
    (((computeMonthlyCareSchedule [pC3] optsC3 ⟨2025, 4, 1⟩).head?.bind
        (fun b => b.plants.head?)).bind (fun row => row.tasks.head?)).map
      (fun t => (t.action, t.dueDates)) = some (TaskAction.water, []) ∧
    pC3.status = some PStatus.active ∧
    (getWater pC3).bind WaterCare.interval_days_hint = some 40 := by decide

/-- C3 amended: every plant row of a forecast bucket carries the task
list computed for that month, and when the plant has `care.water` the row
contains a water task; its `dueDates` list is guaranteed non-empty only
when `monthStart + adjustedInterval` still falls inside the month (the
fallback's own guard) - otherwise it can be empty. -/
theorem forecast_water_coverage_amended
    (plants : List Plant) (opts : CalendarOptions) (now : YMD)
    (b : MonthlySchedule) (row : PlantMonthlySchedule)
    (hb : b ∈ computeMonthlyCareSchedule plants opts now) (hr : row ∈ b.plants) :
    ∃ p monthDate, p ∈ plants ∧
      row.tasks = collectTasksForMonth p (ymdToDay monthDate)
        (ymdToDay (addMonthsYMD monthDate 1) - 1) monthDate.m opts ∧
      ∀ w, getWater p = some w →
        ∃ t, t ∈ row.tasks ∧ t.action = TaskAction.water ∧
          (ymdToDay monthDate + waterIntervalOf w (findOverride p monthDate.m) ≤
              ymdToDay (addMonthsYMD monthDate 1) - 1 →
            t.dueDates ≠ []) := by
  obtain ⟨p, monthDate, hp, _, hrow⟩ := schedule_row_origin plants opts now b row hb hr
  refine ⟨p, monthDate, hp, by rw [hrow], ?_⟩
  intro w hw
  obtain ⟨t, ht, hact, hne⟩ := computeWaterTasks_some p w (ymdToDay monthDate)
    (ymdToDay (addMonthsYMD monthDate 1) - 1) (findOverride p monthDate.m) hw
  refine ⟨t, ?_, hact, hne⟩
  rw [hrow]
  simp only [collectTasksForMonth, ht]
  simp [List.mem_append]

def pW3 : Plant :=
  { id := "w3", common := "Fern", location := "Bath", acquired := none,
    growth_phase := some GrowthPhase.auto, seasonal_overrides := none,
    care := some { water := some { interval_days_hint := some 10, last := none,
                                   flush_salts_months := none },
                   fertilise := none, prune := none, repot := none },
    status := some PStatus.active }

def schedW3 : List MonthlySchedule := computeMonthlyCareSchedule [pW3] optsC3 ⟨2025, 4, 1⟩

def bW3 : MonthlySchedule := schedW3.getD 0 { month := "", plants := [] }

def rowW3 : PlantMonthlySchedule :=
  bW3.plants.getD 0 { plantId := "", plantName := "", location := "", tasks := [] }

theorem forecast_water_coverage_amended_witness :
    bW3 ∈ computeMonthlyCareSchedule [pW3] optsC3 ⟨2025, 4, 1⟩ ∧
    rowW3 ∈ bW3.plants ∧
    (∃ p monthDate, p ∈ [pW3] ∧
      rowW3.tasks = collectTasksForMonth p (ymdToDay monthDate)
        (ymdToDay (addMonthsYMD monthDate 1) - 1) monthDate.m optsC3 ∧
      ∀ w, getWater p = some w →
        ∃ t, t ∈ rowW3.tasks ∧ t.action = TaskAction.water ∧
          (ymdToDay monthDate + waterIntervalOf w (findOverride p monthDate.m) ≤
              ymdToDay (addMonthsYMD monthDate 1) - 1 →
            t.dueDates ≠ [])) :=
  ⟨by decide, by decide,
   forecast_water_coverage_amended [pW3] optsC3 ⟨2025, 4, 1⟩ bW3 rowW3 (by decide) (by decide)⟩

lemma computeWaterTasks_action (p : Plant) (ms me : Int) (ov : Option SeasonalOverride)
    (t : MonthlyTaskSummary) (h : computeWaterTasks p ms me ov = some t) :
    t.action = TaskAction.water := by
  unfold computeWaterTasks at h
  cases hg : getWater p with
  | none =>
    simp only [hg] at h
    exact Option.noConfusion h
  | some w =>
    simp only [hg] at h
    injection h with h
    subst h
    rfl

lemma computeFertiliseTasks_action (p : Plant) (ms me : Int) (ov : Option SeasonalOverride)
    (wm : Option (List Int)) (t : MonthlyTaskSummary)
    (h : computeFertiliseTasks p ms me ov wm = some t) :
    t.action = TaskAction.fertilise := by
  unfold computeFertiliseTasks at h
  cases hg : getFert p with
  | none =>
    simp only [hg] at h
    exact Option.noConfusion h
  | some f =>
    simp only [hg] at h
    split at h
    · exact Option.noConfusion h
    · split at h
      · injection h with h
        subst h
        rfl
      · split at h
        · exact Option.noConfusion h
        · injection h with h
          subst h
          rfl

lemma computeFlushTask_action (p : Plant) (ms me : Int) (t : MonthlyTaskSummary)
    (h : computeFlushTask p ms me = some t) : t.action = TaskAction.flush := by
  unfold computeFlushTask at h
  cases hg : (getWater p).bind WaterCare.flush_salts_months with
  | none =>
    simp only [hg] at h
    exact Option.noConfusion h
  | some fi =>
    simp only [hg] at h
    split at h
    · exact Option.noConfusion h
    · cases ha : parseYMDStr p.acquired with
      | none =>
        simp only [ha] at h
        exact Option.noConfusion h
      | some acq =>
        simp only [ha] at h
        split at h
        · exact Option.noConfusion h
        · split at h
          · exact Option.noConfusion h
          · injection h with h
            subst h
            rfl

lemma computeIntervalTask_action (p : Plant) (ms me : Int) (t : MonthlyTaskSummary)
    (h : computeIntervalTask p ms me = some t) : t.action = TaskAction.prune := by
  unfold computeIntervalTask at h
  cases hg : getPrune p with
  | none =>
    simp only [hg] at h
    exact Option.noConfusion h
  | some details =>
    simp only [hg] at h
    cases hh : details.interval_days_hint with
    | none =>
      simp only [hh] at h
      exact Option.noConfusion h
    | some hint =>
      simp only [hh] at h
      split at h
      · exact Option.noConfusion h
      · injection h with h
        subst h
        rfl

/-- C9: with `care.repot` set, a repot task is produced only when the
guidance is not spring-preferred or the month is March/April/May; with a
reference date (`lastPerformed ?? acquiredDate`) present the task is
suppressed below 12 whole elapsed months, its intensity is `increased`
exactly from 18 months on (`normal` below), and every produced task
carries exactly the single occurrence `monthStart`; moreover any
repot-action task in a forecast month's task list is the one produced by
`computeRepotTask`. -/
theorem repot_task_rules (p : Plant) (r : RepotCare) (ms : Int) (mn : Int)
    (hrep : getRepot p = some r) :
    (r.guidance = some Guidance.springPreferred → ¬ mn ∈ ([3, 4, 5] : List Int) →
        computeRepotTask p ms mn = none) ∧
    (∀ ref, referenceDateOf p r = some ref →
        diffInMonths (startOfMonthDay ms) (startOfMonthDay ref) < 12 →
        computeRepotTask p ms mn = none) ∧
    (∀ t, computeRepotTask p ms mn = some t →
        t.action = TaskAction.repot ∧ t.dueDates = [fmtDay ms] ∧
        ∀ ref, referenceDateOf p r = some ref →
          ((t.intensity = some TaskIntensity.increased ↔
              18 ≤ diffInMonths (startOfMonthDay ms) (startOfMonthDay ref)) ∧
           (t.intensity = some TaskIntensity.normal ↔
              diffInMonths (startOfMonthDay ms) (startOfMonthDay ref) < 18))) ∧
    (∀ me opts t, t ∈ collectTasksForMonth p ms me mn opts → t.action = TaskAction.repot →
        computeRepotTask p ms mn = some t) := by
  refine ⟨?_, ?_, ?_, ?_⟩
  · intro hg hmn
    simp only [computeRepotTask, hrep]
    rw [if_pos ⟨hg, hmn⟩]
  · intro ref href hlt
    simp only [computeRepotTask, hrep, href]
    by_cases hcond : (r.guidance = some Guidance.springPreferred ∧
        ¬ mn ∈ ([3, 4, 5] : List Int))
    · rw [if_pos hcond]
    · rw [if_neg hcond, if_pos hlt]
  · intro t ht
    simp only [computeRepotTask, hrep] at ht
    by_cases hcond : (r.guidance = some Guidance.springPreferred ∧
        ¬ mn ∈ ([3, 4, 5] : List Int))
    · rw [if_pos hcond] at ht
      exact Option.noConfusion ht
    · rw [if_neg hcond] at ht
      cases href : referenceDateOf p r with
      | none =>
        simp only [href] at ht
        injection ht with ht
        subst ht
        refine ⟨rfl, rfl, ?_⟩
        intro ref href2
        exact Option.noConfusion href2
      | some ref =>
        simp only [href] at ht
        split at ht
        · exact Option.noConfusion ht
        · rename_i h12
          injection ht with ht
          subst ht
          refine ⟨rfl, rfl, ?_⟩
          intro ref2 href2
          have hre : ref2 = ref := (Option.some.inj href2).symm
          rw [hre]
          by_cases h18 : 18 ≤ diffInMonths (startOfMonthDay ms) (startOfMonthDay ref)
          · constructor
            · simp [repotSummary, h18]
            · simp only [repotSummary, if_pos h18]
              constructor
              · intro hcontra
                exact absurd hcontra (by simp)
              · intro hlt
                omega
          · constructor
            · simp only [repotSummary, if_neg h18]
              constructor
              · intro hcontra
                exact absurd hcontra (by simp)
              · intro h
                omega
            · simp [repotSummary, h18]
              omega
  · intro me opts t htask hact
    simp only [collectTasksForMonth, List.mem_append, Option.mem_toList, Option.mem_def] at htask
    rcases htask with ((((hw | hf) | hfl) | hpr) | hrp)
    · rw [computeWaterTasks_action p ms me _ t hw] at hact
      exact absurd hact (by simp)
    · rw [computeFertiliseTasks_action p ms me _ _ t hf] at hact
      exact absurd hact (by simp)
    · rw [computeFlushTask_action p ms me t hfl] at hact
      exact absurd hact (by simp)
    · rw [computeIntervalTask_action p ms me t hpr] at hact
      exact absurd hact (by simp)
    · exact hrp

def pW9 : Plant :=
  { id := "w9", common := "Jade", location := "Ledge", acquired := none,
    growth_phase := some GrowthPhase.auto, seasonal_overrides := none,
    care := some { water := none, fertilise := none, prune := none,
                   repot := some { last := some "2024-08-01", guidance := none } },
    status := some PStatus.active }

theorem repot_task_rules_witness :
    getRepot pW9 = some { last := some "2024-08-01", guidance := none } ∧
    computeRepotTask pW9 (ymdToDay ⟨2025, 3, 1⟩) 3 = none :=
  ⟨rfl,
   (repot_task_rules pW9 { last := some "2024-08-01", guidance := none }
      (ymdToDay ⟨2025, 3, 1⟩) 3 rfl).2.1 19936 (by decide) (by decide)⟩

/-- C10: a plant whose `status` field is absent is treated by the
forecast exactly as if it were explicitly active (the schedules are
equal), and every plant row appearing in any bucket comes from a plant
whose status is absent or explicitly active - only an explicit
non-active status excludes a plant. -/
theorem forecast_status_filter :
    (∀ (pre post : List Plant) (p : Plant) (opts : CalendarOptions) (now : YMD),
        p.status = none →
        computeMonthlyCareSchedule (pre ++ p :: post) opts now =
          computeMonthlyCareSchedule (pre ++ { p with status := some PStatus.active } :: post)
            opts now) ∧
    (∀ (plants : List Plant) (opts : CalendarOptions) (now : YMD)
        (b : MonthlySchedule) (row : PlantMonthlySchedule),
        b ∈ computeMonthlyCareSchedule plants opts now → row ∈ b.plants →
        ∃ p, p ∈ plants ∧ row.plantId = p.id ∧
          (p.status = none ∨ p.status = some PStatus.active)) := by
  constructor
  · intro pre post p opts now h
    have h1 : plantSkipped p = false := by simp [plantSkipped, h]
    unfold computeMonthlyCareSchedule
    apply List.map_congr_left
    intro off _
    simp only [monthBucket]
    congr 1
    rw [List.filterMap_append, List.filterMap_append, List.filterMap_cons, List.filterMap_cons]
    have key : (if plantSkipped p then (none : Option PlantMonthlySchedule) else
        (let tasks := collectTasksForMonth p
          (ymdToDay (addMonthsYMD (startOfMonthYMD (opts.startDate.getD now)) (off : Int)))
          (ymdToDay (addMonthsYMD (addMonthsYMD (startOfMonthYMD (opts.startDate.getD now))
            (off : Int)) 1) - 1)
          (addMonthsYMD (startOfMonthYMD (opts.startDate.getD now)) (off : Int)).m opts
         if tasks.isEmpty then none
         else some { plantId := p.id, plantName := p.common, location := p.location,
                     tasks := tasks })) =
        (if plantSkipped { p with status := some PStatus.active } then none else
        (let tasks := collectTasksForMonth { p with status := some PStatus.active }
          (ymdToDay (addMonthsYMD (startOfMonthYMD (opts.startDate.getD now)) (off : Int)))
          (ymdToDay (addMonthsYMD (addMonthsYMD (startOfMonthYMD (opts.startDate.getD now))
            (off : Int)) 1) - 1)
          (addMonthsYMD (startOfMonthYMD (opts.startDate.getD now)) (off : Int)).m opts
         if tasks.isEmpty then none
         else some { plantId := p.id, plantName := p.common, location := p.location,
                     tasks := tasks })) := by
      rw [h1]
      rfl
    rw [key]
  · intro plants opts now b row hb hr
    obtain ⟨p, monthDate, hp, hskip, hrow⟩ := schedule_row_origin plants opts now b row hb hr
    refine ⟨p, hp, by rw [hrow], ?_⟩
    cases hs : p.status with
    | none => exact Or.inl rfl
    | some s =>
      have hact : s = PStatus.active := by
        by_contra hne
        simp [plantSkipped, hs, hne] at hskip
      exact Or.inr (by rw [hact])

def p10 : Plant :=
  { id := "s10", common := "Yucca", location := "Den", acquired := none,
    growth_phase := some GrowthPhase.auto, seasonal_overrides := none,
    care := some { water := some { interval_days_hint := some 9, last := none,
                                   flush_salts_months := none },
                   fertilise := none, prune := none, repot := none },
    status := none }

theorem forecast_status_filter_witness :
    computeMonthlyCareSchedule ([] ++ p10 :: []) optsC3 ⟨2025, 4, 1⟩ =
      computeMonthlyCareSchedule
        ([] ++ { p10 with status := some PStatus.active } :: []) optsC3 ⟨2025, 4, 1⟩ :=
  forecast_status_filter.1 [] [] p10 optsC3 ⟨2025, 4, 1⟩ rfl
